import Mathlib

/-!
Verification of the chat-app repository's database layer and client helpers.

The Supabase migrations (02_chat_rooms.sql, 04_direct_messaging.sql) and the
TypeScript helpers (app/utils/error-handler.ts, ChatInterface.tsx) are shallowly
embedded: tables become lists of row structures, row-level-security policies
become boolean predicates over a caller id and a database state, the plpgsql
function find_or_create_conversation becomes a state-passing Lean function that
returns `none` when the transaction aborts (a raised uniqueness error rolls the
whole call back), and the JavaScript error handlers operate on a small model of
JavaScript values.
-/

namespace ChatApp

/-- Row of public.direct_conversations (04_direct_messaging.sql lines 6-10).
UUIDs and timestamps are modelled as naturals. -/
structure Conversation where
  id : Nat
  created_at : Nat
  updated_at : Nat
deriving DecidableEq, Repr

/-- Row of public.direct_participants (04_direct_messaging.sql lines 16-22). -/
structure Participant where
  id : Nat
  conversation_id : Nat
  user_id : Nat
deriving DecidableEq, Repr

/-- Row of public.direct_messages (04_direct_messaging.sql lines 51-57). -/
structure DirectMessage where
  id : Nat
  conversation_id : Nat
  sender_id : Nat
  content : String
  created_at : Nat
deriving DecidableEq, Repr

/-- The direct-messaging part of the database. -/
structure DMState where
  conversations : List Conversation
  participants : List Participant
  messages : List DirectMessage
deriving DecidableEq, Repr

/-- `SELECT conversation_id FROM public.direct_participants WHERE user_id = auth.uid()`,
the subquery shared by the RLS policies of 04_direct_messaging.sql. -/
def participantConvIds (s : DMState) (uid : Nat) : List Nat :=
  (s.participants.filter (fun p => p.user_id == uid)).map (fun p => p.conversation_id)

/-- Policy "Users can view conversations they are in"
(04_direct_messaging.sql lines 28-34). -/
def canViewConversation (s : DMState) (uid : Nat) (c : Conversation) : Bool :=
  (participantConvIds s uid).contains c.id

/-- Policy "Users can view messages in their conversations"
(04_direct_messaging.sql lines 63-69). -/
def canViewDirectMessage (s : DMState) (uid : Nat) (m : DirectMessage) : Bool :=
  (participantConvIds s uid).contains m.conversation_id

/-- The rows a `SELECT * FROM direct_messages` by caller `uid` may return:
the stored messages filtered by the SELECT policy. -/
def selectDirectMessages (s : DMState) (uid : Nat) : List DirectMessage :=
  s.messages.filter (canViewDirectMessage s uid)

/-- Spec-level participant test: `uid` has a direct_participants row for
conversation `cid`. -/
def isParticipant (s : DMState) (uid cid : Nat) : Bool :=
  s.participants.any (fun p => p.user_id == uid && p.conversation_id == cid)

/-- Participant rows of one conversation. -/
def participantsOf (s : DMState) (cid : Nat) : List Participant :=
  s.participants.filter (fun p => p.conversation_id == cid)

/-- The join-plus-count condition of the SELECT inside find_or_create_conversation
(04_direct_messaging.sql lines 105-112): conversation `cid` has a participant row
for `u1`, a participant row for `u2`, and exactly two participant rows in total. -/
def hasBothAndTwo (s : DMState) (u1 u2 cid : Nat) : Bool :=
  (s.participants.any (fun p => p.conversation_id == cid && p.user_id == u1)) &&
  (s.participants.any (fun p => p.conversation_id == cid && p.user_id == u2)) &&
  ((participantsOf s cid).length == 2)

/-- The `SELECT ... LIMIT 1` of find_or_create_conversation, determinised to the
first matching conversation in table order. -/
def findConversation (s : DMState) (u1 u2 : Nat) : Option Nat :=
  (s.conversations.find? (fun c => hasBothAndTwo s u1 u2 c.id)).map (fun c => c.id)

/-- One INSERT into direct_participants, enforcing UNIQUE(conversation_id, user_id)
(04_direct_messaging.sql line 21): `none` is a raised uniqueness error. -/
def insertParticipant (s : DMState) (pid cid uid : Nat) : Option DMState :=
  if s.participants.any (fun p => p.conversation_id == cid && p.user_id == uid) then
    none
  else
    some { s with participants := s.participants ++ [⟨pid, cid, uid⟩] }

/-- The create path of find_or_create_conversation (04_direct_messaging.sql
lines 119-129): insert one conversation row, then the two participant rows. -/
def createConversation (s : DMState) (u1 u2 : Nat) (newCid pid1 pid2 now : Nat) :
    Option (Nat × DMState) :=
  let s1 : DMState := { s with conversations := s.conversations ++ [⟨newCid, now, now⟩] }
  match insertParticipant s1 pid1 newCid u1 with
  | none => none
  | some s2 =>
    match insertParticipant s2 pid2 newCid u2 with
    | none => none
    | some s3 => some (newCid, s3)

/-- public.find_or_create_conversation (04_direct_messaging.sql lines 98-131).
`newCid`, `pid1`, `pid2` stand for the ids gen_random_uuid() would mint and `now`
for now(); `none` models the call raising an error, which aborts the transaction
and leaves the database unchanged. -/
def find_or_create_conversation (s : DMState) (u1 u2 : Nat) (newCid pid1 pid2 now : Nat) :
    Option (Nat × DMState) :=
  match findConversation s u1 u2 with
  | some cid => some (cid, s)
  | none => createConversation s u1 u2 newCid pid1 pid2 now

/-- Spec-side reading of C1's precondition, written from the claim's words: the
participant set of conversation `cid` is exactly the two-element set of u1 and u2,
carried by exactly two participant rows. -/
def isPairConversation (s : DMState) (u1 u2 cid : Nat) : Prop :=
  (participantsOf s cid).length = 2 ∧
  (∃ p ∈ participantsOf s cid, p.user_id = u1) ∧
  (∃ p ∈ participantsOf s cid, p.user_id = u2) ∧
  (∀ p ∈ participantsOf s cid, p.user_id = u1 ∨ p.user_id = u2)

instance (s : DMState) (u1 u2 cid : Nat) : Decidable (isPairConversation s u1 u2 cid) := by
  unfold isPairConversation; infer_instance

/-- Spec-side statement of conversation deduplication: no two distinct
conversation rows both have participant set exactly u1, u2. -/
def atMostOnePair (s : DMState) (u1 u2 : Nat) : Prop :=
  ∀ c ∈ s.conversations, ∀ c' ∈ s.conversations,
    isPairConversation s u1 u2 c.id → isPairConversation s u1 u2 c'.id → c = c'

instance (s : DMState) (u1 u2 : Nat) : Decidable (atMostOnePair s u1 u2) := by
  unfold atMostOnePair; infer_instance

/-- Spec-side test for a self-conversation of user `u`: a conversation whose
participant rows are non-empty and all carry `u`. -/
def hasSelfConversation (s : DMState) (u : Nat) : Bool :=
  s.conversations.any (fun c =>
    !(participantsOf s c.id).isEmpty && (participantsOf s c.id).all (fun p => p.user_id == u))

/-- Two concurrent find_or_create_conversation calls for the same pair under
read committed: both sessions run the SELECT against the same snapshot `s`
(neither sees the other's uncommitted insert), then each session that found
nothing runs the create path, the second on top of the first's commit. -/
def raceBothCreate (s : DMState) (u1 u2 : Nat) (cidA pA1 pA2 cidB pB1 pB2 now : Nat) :
    Option DMState :=
  if findConversation s u1 u2 = none then
    match createConversation s u1 u2 cidA pA1 pA2 now with
    | none => none
    | some (_, s1) =>
      match createConversation s1 u1 u2 cidB pB1 pB2 now with
      | none => none
      | some (_, s2) => some s2
  else
    none

/-- Row of public.rooms (02_chat_rooms.sql lines 6-13). -/
structure Room where
  id : Nat
  name : String
  description : Option String
  created_by : Nat
  is_private : Bool
  created_at : Nat
deriving DecidableEq, Repr

/-- Row of public.room_members (02_chat_rooms.sql lines 16-22). -/
structure RoomMember where
  id : Nat
  room_id : Nat
  user_id : Nat
deriving DecidableEq, Repr

/-- Row of public.messages after migration 02 added the nullable room_id column
(02_chat_rooms.sql lines 70-71); only the columns the policies read are kept. -/
structure MessageRow where
  id : Nat
  content : String
  user_id : Nat
  room_id : Option Nat
deriving DecidableEq, Repr

/-- The rooms part of the database. -/
structure RoomState where
  rooms : List Room
  room_members : List RoomMember
  messages : List MessageRow
deriving DecidableEq, Repr

/-- Policy "Public rooms are viewable by everyone" (02_chat_rooms.sql lines 28-30). -/
def policyPublicRooms (r : Room) : Bool :=
  r.is_private == false

/-- Policy "Private rooms are viewable only by members" (02_chat_rooms.sql lines 33-38). -/
def policyPrivateRooms (s : RoomState) (uid : Nat) (r : Room) : Bool :=
  r.is_private == false ||
  ((s.room_members.filter (fun m => m.user_id == uid)).map (fun m => m.room_id)).contains r.id

/-- Visibility of a rooms row under the disjunction of the two permissive SELECT
policies, which is how the database combines them. -/
def canViewRoom (s : RoomState) (uid : Nat) (r : Room) : Bool :=
  policyPublicRooms r || policyPrivateRooms s uid r

/-- The id set of the subquery of the messages policies (02_chat_rooms.sql lines 92-96):
public rooms unioned with the caller's memberships. -/
def allowedRoomIds (s : RoomState) (uid : Nat) : List Nat :=
  ((s.rooms.filter (fun r => r.is_private == false)).map (fun r => r.id)) ++
  ((s.room_members.filter (fun m => m.user_id == uid)).map (fun m => m.room_id))

/-- WITH CHECK of policy "Users can insert messages in their rooms"
(02_chat_rooms.sql lines 87-98); a NULL room_id fails the IN test. -/
def canInsertMessage (s : RoomState) (uid : Nat) (m : MessageRow) : Bool :=
  (m.user_id == uid) &&
  (match m.room_id with
   | none => false
   | some rid => (allowedRoomIds s uid).contains rid)

/-- An INSERT into public.messages by caller `uid`: the row is appended when the
WITH CHECK passes, otherwise the statement errors and the table is unchanged
(`none`). -/
def insertMessage (s : RoomState) (uid : Nat) (m : MessageRow) : Option RoomState :=
  if canInsertMessage s uid m then
    some { s with messages := s.messages ++ [m] }
  else
    none

/-- The trigger function public.update_conversation_timestamp
(04_direct_messaging.sql lines 82-90): UPDATE direct_conversations SET
updated_at = now WHERE id = cid. -/
def update_conversation_timestamp (s : DMState) (cid now : Nat) : DMState :=
  { s with conversations :=
      s.conversations.map (fun c => if c.id == cid then { c with updated_at := now } else c) }

/-- The AFTER INSERT trigger on_message_sent (04_direct_messaging.sql lines 93-95):
the new direct_messages row is stored, then the trigger function runs on its
conversation_id. -/
def on_message_sent (s : DMState) (m : DirectMessage) (now : Nat) : DMState :=
  update_conversation_timestamp { s with messages := s.messages ++ [m] } m.conversation_id now

/-! Model of the JavaScript values the error handlers in
app/utils/error-handler.ts can receive (their parameter type is `unknown`). -/

/-- A JavaScript value: null, undefined, a string, a number, a boolean, or an
object given as a field list. -/
inductive JsVal where
  | vnull : JsVal
  | vundefined : JsVal
  | vstr : String → JsVal
  | vnum : Int → JsVal
  | vbool : Bool → JsVal
  | vobj : List (String × JsVal) → JsVal

/-- Field lookup on an object field list; `none` both for an absent key and for
a non-object, matching the `k in e` test combined with access. -/
def getField (fields : List (String × JsVal)) (k : String) : Option JsVal :=
  (fields.find? (fun kv => kv.fst == k)).map (fun kv => kv.snd)

/-- JavaScript truthiness of a value (used by `pgError.details ? ... : ...`). -/
def truthy : JsVal → Bool
  | .vnull => false
  | .vundefined => false
  | .vstr s => s ≠ ""
  | .vnum n => n ≠ 0
  | .vbool b => b
  | .vobj _ => true

/-- String interpolation of a value, as a JavaScript template literal renders it. -/
def toDisplay : JsVal → String
  | .vnull => "null"
  | .vundefined => "undefined"
  | .vstr s => s
  | .vnum n => toString n
  | .vbool true => "true"
  | .vbool false => "false"
  | .vobj _ => "[object Object]"

/-- JavaScript `String.prototype.includes`. -/
def strIncludes (s sub : String) : Bool :=
  decide (sub.toList <:+: s.toList)

/-- The message of the unknown-error fallback (error-handler.ts line 61). -/
def unknownErrorMsg : String :=
  "An unknown error occurred. Please try again."

/-- handleDatabaseError (error-handler.ts lines 12-62). The first branch needs a
`code` property and a string `message`; the second only a string `message`;
anything else falls through to the unknown-error message. -/
def handleDatabaseError (e : JsVal) : String :=
  match e with
  | .vobj fields =>
    match getField fields "code", getField fields "message" with
    | some code, some (.vstr msg) =>
      -- the switch's string cases match only a string code (strict equality),
      -- any other code value falls to the default branch
      let defaultBranch : String :=
        "Database error: " ++ msg ++
          (match getField fields "details" with
           | some d => if truthy d then " (" ++ toDisplay d ++ ")" else ""
           | none => "")
      match code with
      | .vstr c =>
        if c = "42P01" then
          "The database table does not exist. Please run the SQL setup scripts."
        else if c = "23505" then
          "A record with this information already exists."
        else if c = "23503" then
          "This operation references a record that does not exist."
        else if c = "42501" then
          "You do not have permission to perform this operation."
        else if c = "28000" then
          "Authentication failed. Please log in again."
        else if c = "22P02" then
          "Invalid UUID or data format."
        else if c = "54001" then
          if strIncludes msg "infinite recursion" then
            "Infinite recursion detected in policy. Run the fix-recursive-policy.sql script."
          else
            "The database query is too complex."
        else
          defaultBranch
      | _ => defaultBranch
    | _, _ =>
      match getField fields "message" with
      | some (.vstr msg) =>
        if strIncludes msg "infinite recursion" then
          "Infinite recursion detected in policy. Run the fix-recursive-policy.sql script to fix this issue."
        else
          msg
      | _ => unknownErrorMsg
  | _ => unknownErrorMsg

/-- isTableNotFoundError (error-handler.ts lines 67-77): when a `code` property
exists the function returns code === 42P01 immediately; the message test runs
only for objects without a `code` property. -/
def isTableNotFoundError (e : JsVal) : Bool :=
  match e with
  | .vobj fields =>
    match getField fields "code" with
    | some (.vstr c) => c = "42P01"
    | some _ => false
    | none =>
      match getField fields "message" with
      | some (.vstr msg) => strIncludes msg "relation" && strIncludes msg "does not exist"
      | _ => false
  | _ => false

/-- isRecursionError (error-handler.ts lines 82-88). -/
def isRecursionError (e : JsVal) : Bool :=
  match e with
  | .vobj fields =>
    match getField fields "message" with
    | some (.vstr msg) => strIncludes msg "infinite recursion"
    | _ => false
  | _ => false

/-- The setup-script suffix appended for table-not-found errors
(error-handler.ts lines 97-100), whitespace as in the template literal. -/
def tableNotFoundHelp : String :=
  " Please make sure you've run all SQL setup scripts in this order: \n    1. schema.sql\n    2. schema-enhancements-fixed.sql \n    3. schema-direct-messaging.sql"

/-- The recursion-help suffix (error-handler.ts line 104). -/
def recursionHelp : String :=
  " To fix this problem, run the fix-recursive-policy.sql script."

/-- createErrorWithHelp (error-handler.ts lines 93-108). -/
def createErrorWithHelp (e : JsVal) : String :=
  let baseMessage := handleDatabaseError e
  if isTableNotFoundError e then
    baseMessage ++ tableNotFoundHelp
  else if isRecursionError e then
    baseMessage ++ recursionHelp
  else
    baseMessage

/-- Spec-side shape of the one input family on which handleDatabaseError returns
the empty string: an object with no `code` property whose `message` is the empty
string. -/
def isEmptyMessageObj (e : JsVal) : Bool :=
  match e with
  | .vobj fields =>
    (match getField fields "code" with
     | none => true
     | some _ => false) &&
    (match getField fields "message" with
     | some (.vstr m) => m = ""
     | _ => false)
  | _ => false

/-! Model of the message fetching/validation done by ChatInterface.tsx. -/

/-- The two string-format validators Zod runs for `.uuid()` and `.email()`;
kept abstract, the structural claims hold for any choice. -/
structure ZodChecks where
  isUuid : String → Bool
  isEmail : String → Bool

/-- A raw row as fetched from the messages table: every field may be absent
(`none`), matching an object missing the key. -/
structure RawMessage where
  id : Option String
  content : Option String
  created_at : Option String
  user_id : Option String
  user_email : Option String
  room_id : Option String
deriving DecidableEq, Repr

/-- A message as produced by validation: the shape of MessageSchema's output
(ChatInterface.tsx lines 19-26), optional fields may stay absent. -/
structure ParsedMessage where
  id : String
  content : String
  created_at : String
  user_id : String
  user_email : Option String
  room_id : Option String
deriving DecidableEq, Repr

/-- MessageSchema.parse (ChatInterface.tsx lines 19-26, 217): the four required
string fields must be present, id/user_id (and room_id when present) must pass
the uuid check and user_email (when present) the email check; otherwise parse
throws (`none`). -/
def zodParseMessage (z : ZodChecks) (m : RawMessage) : Option ParsedMessage :=
  match m.id, m.content, m.created_at, m.user_id with
  | some i, some c, some t, some u =>
    if z.isUuid i && z.isUuid u &&
       (match m.user_email with | none => true | some e => z.isEmail e) &&
       (match m.room_id with | none => true | some r => z.isUuid r) then
      some ⟨i, c, t, u, m.user_email, m.room_id⟩
    else
      none
  | _, _, _, _ => none

/-- JavaScript `v || d` for a possibly-absent string: absent, null, undefined
and the empty string are falsy and give the default. -/
def jsOrStr (v : Option String) (d : String) : String :=
  match v with
  | none => d
  | some s => if s = "" then d else s

/-- The per-row catch block of fetchMessages (ChatInterface.tsx lines 221-228):
defaults for id/content/user_id are the empty string, for created_at the
current ISO timestamp, for user_email 'unknown@example.com' and for room_id the
current room's id. -/
def fallbackMessage (nowIso currentRoomId : String) (m : RawMessage) : ParsedMessage :=
  { id := jsOrStr m.id ""
    content := jsOrStr m.content ""
    created_at := jsOrStr m.created_at nowIso
    user_id := jsOrStr m.user_id ""
    user_email := some (jsOrStr m.user_email "unknown@example.com")
    room_id := some (jsOrStr m.room_id currentRoomId) }

/-- The `data.map` of fetchMessages (ChatInterface.tsx lines 215-230): parse
each row, fall back to defaults when the parse throws. -/
def validateMessages (z : ZodChecks) (nowIso currentRoomId : String)
    (rows : List RawMessage) : List ParsedMessage :=
  rows.map (fun m =>
    match zodParseMessage z m with
    | some p => p
    | none => fallbackMessage nowIso currentRoomId m)

/-- The fallback as the claim words it: only the fields that are missing from
the row are replaced by their documented defaults; present fields are kept even
when they are the empty string. Stated for comparison with `fallbackMessage`,
which follows the code's JavaScript-falsy semantics. -/
def fallbackMissingOnly (nowIso currentRoomId : String) (m : RawMessage) : ParsedMessage :=
  { id := m.id.getD ""
    content := m.content.getD ""
    created_at := m.created_at.getD nowIso
    user_id := m.user_id.getD ""
    user_email := some (m.user_email.getD "unknown@example.com")
    room_id := some (m.room_id.getD currentRoomId) }

/-! Helper lemmas shared by several claims. -/

theorem contains_iff_mem {α : Type} [BEq α] [LawfulBEq α] {l : List α} {a : α} :
    l.contains a = true ↔ a ∈ l :=
  List.elem_iff

theorem mem_participantsOf {s : DMState} {cid : Nat} {p : Participant} :
    p ∈ participantsOf s cid ↔ p ∈ s.participants ∧ p.conversation_id = cid := by
  simp [participantsOf, List.mem_filter]

theorem isParticipant_iff {s : DMState} {uid cid : Nat} :
    isParticipant s uid cid = true ↔
      ∃ p ∈ s.participants, p.user_id = uid ∧ p.conversation_id = cid := by
  simp [isParticipant, List.any_eq_true]

theorem mem_participantConvIds {s : DMState} {uid cid : Nat} :
    cid ∈ participantConvIds s uid ↔
      ∃ p ∈ s.participants, p.user_id = uid ∧ p.conversation_id = cid := by
  simp [participantConvIds, List.mem_map, List.mem_filter]
  tauto

theorem canViewDirectMessage_eq (s : DMState) (uid : Nat) (m : DirectMessage) :
    canViewDirectMessage s uid m = isParticipant s uid m.conversation_id := by
  rw [Bool.eq_iff_iff]
  rw [isParticipant_iff]
  show (participantConvIds s uid).contains m.conversation_id = true ↔ _
  rw [contains_iff_mem]
  exact mem_participantConvIds

/-- C2: a SELECT on direct_messages by caller uid returns a stored row iff uid
has a direct_participants row for the row's conversation; consequently two
states with the same participant table that agree on the messages of uid's
conversations produce the same SELECT result for uid. -/
theorem direct_messages_select_noninterference (s : DMState) (uid : Nat) :
    (∀ m : DirectMessage, m ∈ selectDirectMessages s uid ↔
      (m ∈ s.messages ∧ ∃ p ∈ s.participants,
        p.user_id = uid ∧ p.conversation_id = m.conversation_id)) ∧
    (∀ s' : DMState, s'.participants = s.participants →
      s.messages.filter (fun m => isParticipant s uid m.conversation_id) =
        s'.messages.filter (fun m => isParticipant s' uid m.conversation_id) →
      selectDirectMessages s uid = selectDirectMessages s' uid) := by
  have hsel : ∀ t : DMState,
      selectDirectMessages t uid =
        t.messages.filter (fun m => isParticipant t uid m.conversation_id) := by
    intro t
    unfold selectDirectMessages
    exact List.filter_congr (fun m _ => canViewDirectMessage_eq t uid m)
  constructor
  · intro m
    rw [hsel, List.mem_filter, isParticipant_iff]
  · intro s' hpart hmsgs
    rw [hsel, hsel, hmsgs]

/-- C3: under the disjunction of the two SELECT policies on rooms, a public room
is visible to every caller; a private room is visible to exactly the callers
with a room_members row for it; in particular a private room's creator without
a membership row cannot see the room. -/
theorem room_select_visibility (s : RoomState) (uid : Nat) (r : Room) :
    (r.is_private = false → canViewRoom s uid r = true) ∧
    (r.is_private = true →
      (canViewRoom s uid r = true ↔
        ∃ m ∈ s.room_members, m.room_id = r.id ∧ m.user_id = uid)) ∧
    (r.is_private = true → r.created_by = uid →
      (∀ m ∈ s.room_members, m.room_id = r.id → m.user_id ≠ uid) →
      canViewRoom s uid r = false) := by
  have hmem : ((s.room_members.filter (fun m => m.user_id == uid)).map
      (fun m => m.room_id)).contains r.id = true ↔
      ∃ m ∈ s.room_members, m.room_id = r.id ∧ m.user_id = uid := by
    rw [contains_iff_mem]
    simp [List.mem_map, List.mem_filter]
    tauto
  refine ⟨?_, ?_, ?_⟩
  · intro h
    simp [canViewRoom, policyPublicRooms, h]
  · intro h
    simp only [canViewRoom, policyPublicRooms, policyPrivateRooms, h]
    simp only [Bool.or_eq_true, beq_iff_eq]
    rw [hmem]
    constructor
    · rintro (hc | hc | hc)
      · exact absurd hc (by simp)
      · exact absurd hc (by simp)
      · exact hc
    · intro hc
      exact Or.inr (Or.inr hc)
  · intro h _ hnm
    simp only [canViewRoom, policyPublicRooms, policyPrivateRooms, h]
    simp only [Bool.or_eq_false_iff, beq_eq_false_iff_ne, ne_eq]
    refine ⟨by simp, by simp, ?_⟩
    rw [Bool.eq_false_iff, ne_eq, hmem]
    rintro ⟨m, hm, hrid, huid⟩
    exact hnm m hm hrid huid

/-- C3 witness: with one private room and its creator as sole member, the
creator sees the room through the membership disjunct. -/
theorem room_select_visibility_witness :
    canViewRoom ⟨[⟨4, "r", none, 9, true, 0⟩], [⟨1, 4, 9⟩], []⟩ 9
      ⟨4, "r", none, 9, true, 0⟩ = true :=
  ((room_select_visibility ⟨[⟨4, "r", none, 9, true, 0⟩], [⟨1, 4, 9⟩], []⟩ 9
      ⟨4, "r", none, 9, true, 0⟩).2.1 rfl).mpr ⟨⟨1, 4, 9⟩, by simp⟩

/-- C4: an INSERT into messages by caller uid is accepted, appending exactly the
new row, iff the row's user_id is uid and its room_id names a public room or a
room uid is a member of; otherwise it is rejected and the table is unchanged. -/
theorem message_insert_policy_spec (s : RoomState) (uid : Nat) (m : MessageRow) :
    (insertMessage s uid m = some { s with messages := s.messages ++ [m] } ↔
      (m.user_id = uid ∧ ∃ rid, m.room_id = some rid ∧
        ((∃ r ∈ s.rooms, r.id = rid ∧ r.is_private = false) ∨
         (∃ mem ∈ s.room_members, mem.room_id = rid ∧ mem.user_id = uid)))) ∧
    (insertMessage s uid m = none ↔
      ¬ (m.user_id = uid ∧ ∃ rid, m.room_id = some rid ∧
        ((∃ r ∈ s.rooms, r.id = rid ∧ r.is_private = false) ∨
         (∃ mem ∈ s.room_members, mem.room_id = rid ∧ mem.user_id = uid)))) := by
  have hcan : canInsertMessage s uid m = true ↔
      (m.user_id = uid ∧ ∃ rid, m.room_id = some rid ∧
        ((∃ r ∈ s.rooms, r.id = rid ∧ r.is_private = false) ∨
         (∃ mem ∈ s.room_members, mem.room_id = rid ∧ mem.user_id = uid))) := by
    unfold canInsertMessage allowedRoomIds
    rw [Bool.and_eq_true, beq_iff_eq]
    constructor
    · rintro ⟨hu, hr⟩
      refine ⟨hu, ?_⟩
      match hrid : m.room_id with
      | none => rw [hrid] at hr; exact absurd hr (by simp)
      | some rid =>
        rw [hrid] at hr
        rw [contains_iff_mem] at hr
        simp only [List.mem_append, List.mem_map, List.mem_filter, beq_iff_eq] at hr
        refine ⟨rid, rfl, ?_⟩
        rcases hr with ⟨r, ⟨hrm, hpriv⟩, hid⟩ | ⟨mm, ⟨hmm, hu2⟩, hid⟩
        · exact Or.inl ⟨r, hrm, hid, hpriv⟩
        · exact Or.inr ⟨mm, hmm, hid, hu2⟩
    · rintro ⟨hu, rid, hrid, hcase⟩
      refine ⟨hu, ?_⟩
      rw [hrid]
      rw [contains_iff_mem]
      simp only [List.mem_append, List.mem_map, List.mem_filter, beq_iff_eq]
      rcases hcase with ⟨r, hrm, hid, hpriv⟩ | ⟨mm, hmm, hid, hu2⟩
      · exact Or.inl ⟨r, ⟨hrm, hpriv⟩, hid⟩
      · exact Or.inr ⟨mm, ⟨hmm, hu2⟩, hid⟩
  constructor
  · rw [← hcan]
    unfold insertMessage
    constructor
    · intro h
      by_contra hc
      rw [Bool.not_eq_true] at hc
      rw [hc] at h
      simp at h
    · intro h
      rw [h]
      simp
  · rw [← hcan]
    unfold insertMessage
    constructor
    · intro h
      intro hc
      rw [hc] at h
      simp at h
    · intro h
      rw [Bool.not_eq_true] at h
      rw [h]
      simp

/-- C9: inserting a direct message fires on_message_sent, which leaves the
participant table alone, stores the new message, and maps each conversation row
to itself except that the rows whose id is the message's conversation_id get
updated_at set to now, keeping their id and created_at. -/
theorem on_message_sent_frame (s : DMState) (m : DirectMessage) (now : Nat) :
    (on_message_sent s m now).participants = s.participants ∧
    (on_message_sent s m now).messages = s.messages ++ [m] ∧
    List.Forall₂
      (fun c c' : Conversation =>
        c'.id = c.id ∧ c'.created_at = c.created_at ∧
        (c.id ≠ m.conversation_id → c' = c) ∧
        (c.id = m.conversation_id → c' = { c with updated_at := now }))
      s.conversations (on_message_sent s m now).conversations := by
  refine ⟨rfl, rfl, ?_⟩
  show List.Forall₂ _ s.conversations (s.conversations.map
    (fun c => if c.id == m.conversation_id then { c with updated_at := now } else c))
  rw [List.forall₂_map_right_iff, List.forall₂_same]
  intro c _
  by_cases h : c.id = m.conversation_id
  · simp [h]
  · simp [h]

theorem hasBothAndTwo_eq_true_iff (s : DMState) (u1 u2 cid : Nat) :
    hasBothAndTwo s u1 u2 cid = true ↔
      ((∃ p ∈ participantsOf s cid, p.user_id = u1) ∧
       (∃ p ∈ participantsOf s cid, p.user_id = u2) ∧
       (participantsOf s cid).length = 2) := by
  unfold hasBothAndTwo
  simp only [Bool.and_eq_true, List.any_eq_true, beq_iff_eq, mem_participantsOf]
  constructor
  · rintro ⟨⟨⟨p1, hp1, hc1, hu1⟩, ⟨p2, hp2, hc2, hu2⟩⟩, hlen⟩
    exact ⟨⟨p1, ⟨hp1, hc1⟩, hu1⟩, ⟨p2, ⟨hp2, hc2⟩, hu2⟩, hlen⟩
  · rintro ⟨⟨p1, ⟨hp1, hc1⟩, hu1⟩, ⟨p2, ⟨hp2, hc2⟩, hu2⟩, hlen⟩
    exact ⟨⟨⟨p1, hp1, hc1, hu1⟩, ⟨p2, hp2, hc2, hu2⟩⟩, hlen⟩

theorem hasBothAndTwo_congr {s s' : DMState} (u1 u2 : Nat) {cid : Nat}
    (h : participantsOf s cid = participantsOf s' cid) :
    hasBothAndTwo s u1 u2 cid = hasBothAndTwo s' u1 u2 cid := by
  rw [Bool.eq_iff_iff, hasBothAndTwo_eq_true_iff, hasBothAndTwo_eq_true_iff, h]

theorem hasBothAndTwo_symm (s : DMState) (u1 u2 cid : Nat) :
    hasBothAndTwo s u2 u1 cid = hasBothAndTwo s u1 u2 cid := by
  rw [Bool.eq_iff_iff, hasBothAndTwo_eq_true_iff, hasBothAndTwo_eq_true_iff]
  tauto

theorem isPairConversation_congr {s s' : DMState} (u1 u2 : Nat) {cid : Nat}
    (h : participantsOf s cid = participantsOf s' cid) :
    isPairConversation s u1 u2 cid ↔ isPairConversation s' u1 u2 cid := by
  unfold isPairConversation
  rw [h]

theorem hasBothAndTwo_iff_pair {s : DMState} {u1 u2 : Nat} (cid : Nat) (hne : u1 ≠ u2) :
    hasBothAndTwo s u1 u2 cid = true ↔ isPairConversation s u1 u2 cid := by
  rw [hasBothAndTwo_eq_true_iff]
  unfold isPairConversation
  constructor
  · rintro ⟨⟨p1, hp1, hu1⟩, ⟨p2, hp2, hu2⟩, hlen⟩
    refine ⟨hlen, ⟨p1, hp1, hu1⟩, ⟨p2, hp2, hu2⟩, ?_⟩
    have hp12 : p1 ≠ p2 := by
      intro hcontra
      exact hne (hu1 ▸ hu2 ▸ congrArg Participant.user_id hcontra)
    obtain ⟨a, b, hab⟩ := List.length_eq_two.mp hlen
    rw [hab] at hp1 hp2 ⊢
    simp only [List.mem_cons, List.not_mem_nil, or_false] at hp1 hp2
    intro p hp
    simp only [List.mem_cons, List.not_mem_nil, or_false] at hp
    rcases hp1 with h1 | h1 <;> rcases hp2 with h2 | h2
    · exact absurd (h1.trans h2.symm) hp12
    · rcases hp with rfl | rfl
      · exact Or.inl (h1 ▸ hu1)
      · exact Or.inr (h2 ▸ hu2)
    · rcases hp with rfl | rfl
      · exact Or.inr (h2 ▸ hu2)
      · exact Or.inl (h1 ▸ hu1)
    · exact absurd (h1.trans h2.symm) hp12
  · rintro ⟨hlen, h1, h2, _⟩
    exact ⟨h1, h2, hlen⟩

theorem find?_eq_some_of_unique {α : Type} {l : List α} {p : α → Bool} {x : α}
    (hx : x ∈ l) (hpx : p x = true) (huniq : ∀ y ∈ l, p y = true → y = x) :
    l.find? p = some x := by
  induction l with
  | nil => cases hx
  | cons a t ih =>
    by_cases hpa : p a = true
    · rw [List.find?_cons_of_pos _ hpa]
      rw [huniq a (List.mem_cons_self a t) hpa]
    · rw [List.find?_cons_of_neg _ hpa]
      have hx' : x ∈ t := by
        rcases List.mem_cons.mp hx with rfl | h
        · exact absurd hpx hpa
        · exact h
      exact ih hx' (fun y hy hpy => huniq y (List.mem_cons_of_mem a hy) hpy)

theorem findConversation_eq_none_iff (s : DMState) (u1 u2 : Nat) :
    findConversation s u1 u2 = none ↔
      ∀ c ∈ s.conversations, hasBothAndTwo s u1 u2 c.id = false := by
  unfold findConversation
  rw [Option.map_eq_none', List.find?_eq_none]
  simp only [Bool.not_eq_true]

theorem findConversation_symm (s : DMState) (u1 u2 : Nat) :
    findConversation s u2 u1 = findConversation s u1 u2 := by
  unfold findConversation
  have : (fun c : Conversation => hasBothAndTwo s u2 u1 c.id) =
      (fun c : Conversation => hasBothAndTwo s u1 u2 c.id) :=
    funext (fun c => hasBothAndTwo_symm s u1 u2 c.id)
  rw [this]

theorem createConversation_eq (s : DMState) (u1 u2 newCid pid1 pid2 now : Nat)
    (hne : u1 ≠ u2)
    (hfp : ∀ p ∈ s.participants, p.conversation_id ≠ newCid) :
    createConversation s u1 u2 newCid pid1 pid2 now =
      some (newCid,
        { conversations := s.conversations ++ [⟨newCid, now, now⟩]
          participants := s.participants ++ [⟨pid1, newCid, u1⟩, ⟨pid2, newCid, u2⟩]
          messages := s.messages }) := by
  have h1 : (s.participants.any
      (fun p => p.conversation_id == newCid && p.user_id == u1)) = false := by
    rw [List.any_eq_false]
    intro p hp
    simp [hfp p hp]
  have h2 : ((s.participants ++ [(⟨pid1, newCid, u1⟩ : Participant)]).any
      (fun p : Participant => p.conversation_id == newCid && p.user_id == u2)) = false := by
    rw [List.any_eq_false]
    intro p hp
    rcases List.mem_append.mp hp with h | h
    · simp [hfp p h]
    · simp only [List.mem_cons, List.not_mem_nil, or_false] at h
      subst h
      simp [hne]
  unfold createConversation insertParticipant
  simp [h1, h2, List.append_assoc]

/-- C1: for distinct users u1 and u2 (and a fresh conversation id for the create
path), when some conversation row has participant set exactly u1, u2 in exactly
two rows and is the only such row, find_or_create_conversation returns its id
and leaves the state unchanged; when no such conversation exists it returns the
fresh id and the state extended by exactly one conversation row and the two
participant rows for u1 and u2. -/
theorem find_or_create_conversation_spec (s : DMState) (u1 u2 newCid pid1 pid2 now : Nat)
    (hne : u1 ≠ u2)
    (hfp : ∀ p ∈ s.participants, p.conversation_id ≠ newCid) :
    (∀ c ∈ s.conversations, isPairConversation s u1 u2 c.id →
      (∀ c' ∈ s.conversations, isPairConversation s u1 u2 c'.id → c' = c) →
      find_or_create_conversation s u1 u2 newCid pid1 pid2 now = some (c.id, s)) ∧
    ((∀ c ∈ s.conversations, ¬ isPairConversation s u1 u2 c.id) →
      find_or_create_conversation s u1 u2 newCid pid1 pid2 now =
        some (newCid,
          { conversations := s.conversations ++ [⟨newCid, now, now⟩]
            participants := s.participants ++ [⟨pid1, newCid, u1⟩, ⟨pid2, newCid, u2⟩]
            messages := s.messages })) := by
  constructor
  · intro c hc hpair huniq
    have hfind : findConversation s u1 u2 = some c.id := by
      unfold findConversation
      rw [find?_eq_some_of_unique hc ((hasBothAndTwo_iff_pair c.id hne).mpr hpair)
        (fun y hy hpy => huniq y hy ((hasBothAndTwo_iff_pair y.id hne).mp hpy))]
      rfl
    unfold find_or_create_conversation
    rw [hfind]
  · intro hnone
    have hfind : findConversation s u1 u2 = none := by
      rw [findConversation_eq_none_iff]
      intro c hc
      rw [Bool.eq_false_iff]
      intro ht
      exact hnone c hc ((hasBothAndTwo_iff_pair c.id hne).mp ht)
    unfold find_or_create_conversation
    rw [hfind]
    exact createConversation_eq s u1 u2 newCid pid1 pid2 now hne hfp

/-- C1 witness: on the empty database the call creates conversation 10 with the
two participant rows for users 1 and 2. -/
theorem find_or_create_conversation_spec_witness :
    find_or_create_conversation ⟨[], [], []⟩ 1 2 10 11 12 0 =
      some (10, ⟨[⟨10, 0, 0⟩], [⟨11, 10, 1⟩, ⟨12, 10, 2⟩], []⟩) :=
  (find_or_create_conversation_spec ⟨[], [], []⟩ 1 2 10 11 12 0 (by decide)
    (fun p hp => absurd hp (List.not_mem_nil p))).2
    (fun c hc _ => absurd hc (List.not_mem_nil c))

theorem participantsOf_create_old (s : DMState) {newCid cid : Nat} (pid1 pid2 u1 u2 now : Nat)
    (hcid : cid ≠ newCid) :
    participantsOf ⟨s.conversations ++ [⟨newCid, now, now⟩],
      s.participants ++ [⟨pid1, newCid, u1⟩, ⟨pid2, newCid, u2⟩], s.messages⟩ cid =
      participantsOf s cid := by
  unfold participantsOf
  rw [List.filter_append]
  have h0 : List.filter (fun p : Participant => p.conversation_id == cid)
      [⟨pid1, newCid, u1⟩, ⟨pid2, newCid, u2⟩] = [] := by
    rw [List.filter_eq_nil_iff]
    intro p hp
    simp only [List.mem_cons, List.not_mem_nil, or_false] at hp
    rcases hp with rfl | rfl <;> simp [Ne.symm hcid]
  rw [h0, List.append_nil]

theorem participantsOf_create_new (s : DMState) (newCid pid1 pid2 u1 u2 now : Nat)
    (hfp : ∀ p ∈ s.participants, p.conversation_id ≠ newCid) :
    participantsOf ⟨s.conversations ++ [⟨newCid, now, now⟩],
      s.participants ++ [⟨pid1, newCid, u1⟩, ⟨pid2, newCid, u2⟩], s.messages⟩ newCid =
      [⟨pid1, newCid, u1⟩, ⟨pid2, newCid, u2⟩] := by
  unfold participantsOf
  rw [List.filter_append]
  have h0 : List.filter (fun p : Participant => p.conversation_id == newCid)
      s.participants = [] := by
    rw [List.filter_eq_nil_iff]
    intro p hp
    simp [hfp p hp]
  rw [h0, List.nil_append]
  simp

theorem findConversation_after_create (s : DMState) (u1 u2 newCid pid1 pid2 now : Nat)
    (hfc : ∀ c ∈ s.conversations, c.id ≠ newCid)
    (hfp : ∀ p ∈ s.participants, p.conversation_id ≠ newCid)
    (hnone : findConversation s u1 u2 = none) :
    findConversation ⟨s.conversations ++ [⟨newCid, now, now⟩],
      s.participants ++ [⟨pid1, newCid, u1⟩, ⟨pid2, newCid, u2⟩], s.messages⟩ u1 u2 =
      some newCid := by
  have hold := (findConversation_eq_none_iff s u1 u2).mp hnone
  unfold findConversation
  rw [find?_eq_some_of_unique
    (x := (⟨newCid, now, now⟩ : Conversation))
    (List.mem_append_right _ (List.mem_cons_self _ _))
    (by
      rw [hasBothAndTwo_eq_true_iff,
        participantsOf_create_new s newCid pid1 pid2 u1 u2 now hfp]
      exact ⟨⟨⟨pid1, newCid, u1⟩, List.mem_cons_self _ _, rfl⟩,
        ⟨⟨pid2, newCid, u2⟩, List.mem_cons_of_mem _ (List.mem_cons_self _ _), rfl⟩, rfl⟩)
    (by
      intro y hy hpy
      rcases List.mem_append.mp hy with hyold | hynew
      · exfalso
        rw [hasBothAndTwo_congr u1 u2
          (participantsOf_create_old s pid1 pid2 u1 u2 now (hfc y hyold))] at hpy
        rw [hold y hyold] at hpy
        exact Bool.false_ne_true hpy
      · simp only [List.mem_cons, List.not_mem_nil, or_false] at hynew
        exact hynew)]
  rfl

/-- C5: once a call on distinct users returns conversation id `cid` and state
`s2`, every later sequential call with the same pair, in either argument order,
returns the same `cid` and leaves `s2` unchanged. -/
theorem find_or_create_conversation_idem_symm (s : DMState) (u1 u2 newCid pid1 pid2 now : Nat)
    (hne : u1 ≠ u2)
    (hfc : ∀ c ∈ s.conversations, c.id ≠ newCid)
    (hfp : ∀ p ∈ s.participants, p.conversation_id ≠ newCid)
    (cid : Nat) (s2 : DMState)
    (h : find_or_create_conversation s u1 u2 newCid pid1 pid2 now = some (cid, s2))
    (newCid2 pid3 pid4 now2 : Nat) :
    find_or_create_conversation s2 u1 u2 newCid2 pid3 pid4 now2 = some (cid, s2) ∧
    find_or_create_conversation s2 u2 u1 newCid2 pid3 pid4 now2 = some (cid, s2) := by
  have key : findConversation s2 u1 u2 = some cid := by
    unfold find_or_create_conversation at h
    cases hf : findConversation s u1 u2 with
    | some c0 =>
      rw [hf] at h
      obtain ⟨h1, h2⟩ := Prod.mk.injEq .. ▸ Option.some.inj h
      subst h1; subst h2
      exact hf
    | none =>
      rw [hf, createConversation_eq s u1 u2 newCid pid1 pid2 now hne hfp] at h
      obtain ⟨h1, h2⟩ := Prod.mk.injEq .. ▸ Option.some.inj h
      subst h1; subst h2
      exact findConversation_after_create s u1 u2 newCid pid1 pid2 now hfc hfp hf
  refine ⟨?_, ?_⟩
  · unfold find_or_create_conversation
    rw [key]
  · unfold find_or_create_conversation
    rw [findConversation_symm, key]

/-- C5 witness: with the conversation created by a first call in place, the
repeat call and the swapped call both return it unchanged. -/
theorem find_or_create_conversation_idem_symm_witness :
    find_or_create_conversation ⟨[⟨10, 0, 0⟩], [⟨11, 10, 1⟩, ⟨12, 10, 2⟩], []⟩ 1 2 30 31 32 5 =
      some (10, ⟨[⟨10, 0, 0⟩], [⟨11, 10, 1⟩, ⟨12, 10, 2⟩], []⟩) ∧
    find_or_create_conversation ⟨[⟨10, 0, 0⟩], [⟨11, 10, 1⟩, ⟨12, 10, 2⟩], []⟩ 2 1 30 31 32 5 =
      some (10, ⟨[⟨10, 0, 0⟩], [⟨11, 10, 1⟩, ⟨12, 10, 2⟩], []⟩) :=
  find_or_create_conversation_idem_symm ⟨[], [], []⟩ 1 2 10 11 12 0 (by decide)
    (fun c hc => absurd hc (List.not_mem_nil c))
    (fun p hp => absurd hp (List.not_mem_nil p))
    10 ⟨[⟨10, 0, 0⟩], [⟨11, 10, 1⟩, ⟨12, 10, 2⟩], []⟩ (by decide) 30 31 32 5

/-- C6 counterexample: two interleaved calls for the pair 1, 2 both read the
empty snapshot, both take the create path, and the final state holds two
distinct conversations whose participant set is exactly that pair, so "at most
one such conversation ever exists" fails under races. -/
theorem raceBothCreate_duplicates_cex :
    raceBothCreate ⟨[], [], []⟩ 1 2 10 11 12 20 21 22 0 =
      some ⟨[⟨10, 0, 0⟩, ⟨20, 0, 0⟩],
        [⟨11, 10, 1⟩, ⟨12, 10, 2⟩, ⟨21, 20, 1⟩, ⟨22, 20, 2⟩], []⟩ ∧
    ¬ atMostOnePair ⟨[⟨10, 0, 0⟩, ⟨20, 0, 0⟩],
        [⟨11, 10, 1⟩, ⟨12, 10, 2⟩, ⟨21, 20, 1⟩, ⟨22, 20, 2⟩], []⟩ 1 2 := by
  decide

/-- C6 amended: a single uninterleaved call preserves deduplication — if the
state has at most one conversation with participant set exactly u1, u2, the
state after a successful call still has at most one (the duplication of the
counterexample needs interleaving). -/
theorem find_or_create_preserves_dedup (s : DMState) (u1 u2 newCid pid1 pid2 now : Nat)
    (hne : u1 ≠ u2)
    (hfc : ∀ c ∈ s.conversations, c.id ≠ newCid)
    (hfp : ∀ p ∈ s.participants, p.conversation_id ≠ newCid)
    (hinv : atMostOnePair s u1 u2)
    (cid : Nat) (s2 : DMState)
    (h : find_or_create_conversation s u1 u2 newCid pid1 pid2 now = some (cid, s2)) :
    atMostOnePair s2 u1 u2 := by
  unfold find_or_create_conversation at h
  cases hf : findConversation s u1 u2 with
  | some c0 =>
    rw [hf] at h
    obtain ⟨h1, h2⟩ := Prod.mk.injEq .. ▸ Option.some.inj h
    subst h2
    exact hinv
  | none =>
    rw [hf, createConversation_eq s u1 u2 newCid pid1 pid2 now hne hfp] at h
    obtain ⟨h1, h2⟩ := Prod.mk.injEq .. ▸ Option.some.inj h
    subst h2
    have hold := (findConversation_eq_none_iff s u1 u2).mp hf
    intro c hc c' hc' hp hp'
    have honly : ∀ d ∈ s.conversations, ¬ isPairConversation
        (⟨s.conversations ++ [⟨newCid, now, now⟩],
          s.participants ++ [⟨pid1, newCid, u1⟩, ⟨pid2, newCid, u2⟩], s.messages⟩ : DMState)
        u1 u2 d.id := by
      intro d hd hpd
      rw [← isPairConversation_congr u1 u2
        (participantsOf_create_old s pid1 pid2 u1 u2 now (hfc d hd)).symm] at hpd
      rw [← hasBothAndTwo_iff_pair d.id hne, hold d hd] at hpd
      exact Bool.false_ne_true hpd
    rcases List.mem_append.mp hc with hcold | hcnew
    · exact absurd hp (honly c hcold)
    · rcases List.mem_append.mp hc' with hcold' | hcnew'
      · exact absurd hp' (honly c' hcold')
      · simp only [List.mem_cons, List.not_mem_nil, or_false] at hcnew hcnew'
        rw [hcnew, hcnew']

/-- C6 amended witness: a call on a deduplicated state keeps it deduplicated. -/
theorem find_or_create_preserves_dedup_witness :
    atMostOnePair ⟨[⟨10, 0, 0⟩], [⟨11, 10, 1⟩, ⟨12, 10, 2⟩], []⟩ 1 2 :=
  find_or_create_preserves_dedup ⟨[], [], []⟩ 1 2 10 11 12 0 (by decide)
    (fun c hc => absurd hc (List.not_mem_nil c))
    (fun p hp => absurd hp (List.not_mem_nil p))
    (fun c hc => absurd hc (List.not_mem_nil c))
    10 ⟨[⟨10, 0, 0⟩], [⟨11, 10, 1⟩, ⟨12, 10, 2⟩], []⟩ (by decide)

/-- C8 counterexample: in a state with no self-conversation for user 5 but an
ordinary two-participant conversation 7 between users 5 and 6, the call
find_or_create_conversation(5, 5) returns normally with conversation 7 instead
of raising, refuting the claim as stated. -/
theorem find_or_create_self_cex :
    hasSelfConversation ⟨[⟨7, 0, 0⟩], [⟨1, 7, 5⟩, ⟨2, 7, 6⟩], []⟩ 5 = false ∧
    find_or_create_conversation ⟨[⟨7, 0, 0⟩], [⟨1, 7, 5⟩, ⟨2, 7, 6⟩], []⟩ 5 5 10 11 12 0 =
      some (7, ⟨[⟨7, 0, 0⟩], [⟨1, 7, 5⟩, ⟨2, 7, 6⟩], []⟩) := by
  decide

/-- C8 amended: when user u participates in no conversation with exactly two
participant rows, find_or_create_conversation(u, u) raises: the SELECT finds
nothing and the second participant INSERT violates
UNIQUE(conversation_id, user_id), so the call errors and the transaction rolls
back leaving the database unchanged (`none`). -/
theorem find_or_create_self_raises (s : DMState) (u newCid pid1 pid2 now : Nat)
    (hno2 : ∀ c ∈ s.conversations,
      ¬ (isParticipant s u c.id = true ∧ (participantsOf s c.id).length = 2))
    (hfp : ∀ p ∈ s.participants, p.conversation_id ≠ newCid) :
    find_or_create_conversation s u u newCid pid1 pid2 now = none := by
  have hfind : findConversation s u u = none := by
    rw [findConversation_eq_none_iff]
    intro c hc
    rw [Bool.eq_false_iff]
    intro ht
    rw [hasBothAndTwo_eq_true_iff] at ht
    obtain ⟨⟨p, hp, hu⟩, _, hlen⟩ := ht
    obtain ⟨hps, hpc⟩ := mem_participantsOf.mp hp
    exact hno2 c hc ⟨isParticipant_iff.mpr ⟨p, hps, hu, hpc⟩, hlen⟩
  unfold find_or_create_conversation
  rw [hfind]
  have h1 : (s.participants.any
      (fun p => p.conversation_id == newCid && p.user_id == u)) = false := by
    rw [List.any_eq_false]
    intro p hp
    simp [hfp p hp]
  have h2 : ((s.participants ++ [(⟨pid1, newCid, u⟩ : Participant)]).any
      (fun p : Participant => p.conversation_id == newCid && p.user_id == u)) = true := by
    rw [List.any_eq_true]
    exact ⟨⟨pid1, newCid, u⟩, List.mem_append_right _ (List.mem_cons_self _ _), by simp⟩
  unfold createConversation insertParticipant
  simp [h1, h2]

/-- C8 amended witness: on the empty database the self-call raises. -/
theorem find_or_create_self_raises_witness :
    find_or_create_conversation ⟨[], [], []⟩ 5 5 10 11 12 0 = none :=
  find_or_create_self_raises ⟨[], [], []⟩ 5 10 11 12 0
    (fun c hc => absurd hc (List.not_mem_nil c))
    (fun p hp => absurd hp (List.not_mem_nil p))

/-- C7 counterexample: on a row whose created_at is present but the empty
string and whose user_id is missing, the parse fails and the code's fallback
replaces the present created_at by the current timestamp, while the claim's
missing-fields-only fallback keeps it; so the validated element is not the row
with only its missing fields defaulted. -/
theorem validateMessages_cex :
    zodParseMessage ⟨fun _ => true, fun _ => true⟩
      ⟨some "a", some "b", some "", none, none, none⟩ = none ∧
    validateMessages ⟨fun _ => true, fun _ => true⟩ "NOW" "ROOM"
      [⟨some "a", some "b", some "", none, none, none⟩] =
      [⟨"a", "b", "NOW", "", some "unknown@example.com", some "ROOM"⟩] ∧
    validateMessages ⟨fun _ => true, fun _ => true⟩ "NOW" "ROOM"
      [⟨some "a", some "b", some "", none, none, none⟩] ≠
      [fallbackMissingOnly "NOW" "ROOM" ⟨some "a", some "b", some "", none, none, none⟩] := by
  refine ⟨rfl, rfl, ?_⟩
  decide

/-- C7 amended: the validation map is total, keeps length and order, and each
element is the Zod parse of its row when that parse succeeds and otherwise the
row with each missing-or-empty (JavaScript-falsy) field replaced by its
documented default. -/
theorem validateMessages_spec (z : ZodChecks) (nowIso roomId : String)
    (rows : List RawMessage) :
    (validateMessages z nowIso roomId rows).length = rows.length ∧
    List.Forall₂
      (fun m p =>
        (∀ q, zodParseMessage z m = some q → p = q) ∧
        (zodParseMessage z m = none → p = fallbackMessage nowIso roomId m))
      rows (validateMessages z nowIso roomId rows) := by
  constructor
  · unfold validateMessages
    rw [List.length_map]
  · unfold validateMessages
    rw [List.forall₂_map_right_iff, List.forall₂_same]
    intro m _
    cases hq : zodParseMessage z m with
    | none =>
      refine ⟨?_, ?_⟩
      · intro q h
        exact Option.noConfusion h
      · intro _
        rfl
    | some p0 =>
      refine ⟨?_, ?_⟩
      · intro q h
        exact Option.some.inj h
      · intro h
        exact Option.noConfusion h

/-! String helpers for the createErrorWithHelp analysis. -/

theorem str_append_ne_empty_left (a b : String) (ha : a ≠ "") : a ++ b ≠ "" := by
  intro h
  rw [String.ext_iff, String.data_append] at h
  have hdata : a.data ++ b.data = [] := h
  rcases List.append_eq_nil.mp hdata with ⟨ha0, _⟩
  exact ha (String.ext_iff.mpr (by simp [ha0]))

theorem str_append_left_cancel {a b c : String} (h : a ++ b = a ++ c) : b = c := by
  rw [String.ext_iff, String.data_append, String.data_append] at h
  exact String.ext_iff.mpr (List.append_cancel_left h)

theorem str_self_eq_append_iff {a b : String} : a = a ++ b ↔ b = "" := by
  constructor
  · intro h
    rw [String.ext_iff, String.data_append] at h
    have := List.self_eq_append_right.mp h
    exact String.ext_iff.mpr (by simp [this])
  · intro h
    subst h
    exact String.ext_iff.mpr (by rw [String.data_append]; simp)

theorem handleDatabaseError_code_msg_ne_empty (fields : List (String × JsVal))
    (code : JsVal) (m : String)
    (hcode : getField fields "code" = some code)
    (hmsg : getField fields "message" = some (.vstr m)) :
    handleDatabaseError (.vobj fields) ≠ "" := by
  unfold handleDatabaseError
  simp only [hcode, hmsg]
  cases code with
  | vstr c =>
    dsimp only
    split_ifs <;>
      first
        | decide
        | exact str_append_ne_empty_left _ _ (str_append_ne_empty_left _ _ (by decide))
  | vnull =>
    exact str_append_ne_empty_left _ _ (str_append_ne_empty_left _ _ (by decide))
  | vundefined =>
    exact str_append_ne_empty_left _ _ (str_append_ne_empty_left _ _ (by decide))
  | vnum n =>
    exact str_append_ne_empty_left _ _ (str_append_ne_empty_left _ _ (by decide))
  | vbool b =>
    exact str_append_ne_empty_left _ _ (str_append_ne_empty_left _ _ (by decide))
  | vobj g =>
    exact str_append_ne_empty_left _ _ (str_append_ne_empty_left _ _ (by decide))

/-- C10 counterexample: an object whose message is the empty string makes
handleDatabaseError return the empty string, refuting non-emptiness; and an
object carrying both a non-42P01 code and a relation-does-not-exist message is
not classified by isTableNotFoundError, refuting the claim's code-or-message
characterisation. -/
theorem errorHandler_cex :
    handleDatabaseError (.vobj [("message", .vstr "")]) = "" ∧
    isTableNotFoundError (.vobj [("code", .vstr "23505"),
      ("message", .vstr "relation notes does not exist")]) = false ∧
    strIncludes "relation notes does not exist" "relation" = true ∧
    strIncludes "relation notes does not exist" "does not exist" = true := by
  refine ⟨rfl, rfl, ?_, ?_⟩ <;> decide

theorem isTableNotFoundError_code_vstr (fields : List (String × JsVal)) (c : String)
    (hcode : getField fields "code" = some (.vstr c)) :
    isTableNotFoundError (.vobj fields) = decide (c = "42P01") := by
  unfold isTableNotFoundError
  simp only [hcode]

theorem isTableNotFoundError_code_other (fields : List (String × JsVal)) (code : JsVal)
    (hcode : getField fields "code" = some code)
    (hnot : ∀ s : String, code ≠ .vstr s) :
    isTableNotFoundError (.vobj fields) = false := by
  unfold isTableNotFoundError
  simp only [hcode]

theorem isTableNotFoundError_nocode_strmsg (fields : List (String × JsVal)) (m : String)
    (hcode : getField fields "code" = none)
    (hmsg : getField fields "message" = some (.vstr m)) :
    isTableNotFoundError (.vobj fields) =
      (strIncludes m "relation" && strIncludes m "does not exist") := by
  unfold isTableNotFoundError
  simp only [hcode, hmsg]

theorem isTableNotFoundError_nocode_nostrmsg (fields : List (String × JsVal))
    (hcode : getField fields "code" = none)
    (hnostr : ∀ m : String, getField fields "message" ≠ some (.vstr m)) :
    isTableNotFoundError (.vobj fields) = false := by
  unfold isTableNotFoundError
  simp only [hcode]

theorem handleDatabaseError_no_strmsg (fields : List (String × JsVal))
    (hnostr : ∀ m : String, getField fields "message" ≠ some (.vstr m)) :
    handleDatabaseError (.vobj fields) = unknownErrorMsg := by
  unfold handleDatabaseError
  cases hmsg : getField fields "message" with
  | none =>
    cases hcode : getField fields "code" with
    | none => simp only [hcode, hmsg]
    | some code => simp only [hcode, hmsg]
  | some mv =>
    cases hcode : getField fields "code" with
    | none =>
      cases mv with
      | vstr m => exact absurd hmsg (hnostr m)
      | vnull => simp only [hcode, hmsg]
      | vundefined => simp only [hcode, hmsg]
      | vnum n => simp only [hcode, hmsg]
      | vbool b => simp only [hcode, hmsg]
      | vobj g => simp only [hcode, hmsg]
    | some code =>
      cases mv with
      | vstr m => exact absurd hmsg (hnostr m)
      | vnull => simp only [hcode, hmsg]
      | vundefined => simp only [hcode, hmsg]
      | vnum n => simp only [hcode, hmsg]
      | vbool b => simp only [hcode, hmsg]
      | vobj g => simp only [hcode, hmsg]

theorem handleDatabaseError_nocode_strmsg (fields : List (String × JsVal)) (m : String)
    (hcode : getField fields "code" = none)
    (hmsg : getField fields "message" = some (.vstr m)) :
    handleDatabaseError (.vobj fields) =
      (if strIncludes m "infinite recursion" then
        "Infinite recursion detected in policy. Run the fix-recursive-policy.sql script to fix this issue."
      else m) := by
  unfold handleDatabaseError
  simp only [hcode, hmsg]

theorem isEmptyMessageObj_code (fields : List (String × JsVal)) (code : JsVal)
    (hcode : getField fields "code" = some code) :
    isEmptyMessageObj (.vobj fields) = false := by
  unfold isEmptyMessageObj
  simp only [hcode, Bool.false_and]

theorem isEmptyMessageObj_nocode_strmsg (fields : List (String × JsVal)) (m : String)
    (hcode : getField fields "code" = none)
    (hmsg : getField fields "message" = some (.vstr m)) :
    isEmptyMessageObj (.vobj fields) = decide (m = "") := by
  unfold isEmptyMessageObj
  simp only [hcode, hmsg, Bool.true_and]

theorem isEmptyMessageObj_nocode_nostrmsg (fields : List (String × JsVal))
    (hcode : getField fields "code" = none)
    (hnostr : ∀ m : String, getField fields "message" ≠ some (.vstr m)) :
    isEmptyMessageObj (.vobj fields) = false := by
  unfold isEmptyMessageObj
  simp only [hcode, Bool.true_and]

/-- C10 amended: handleDatabaseError is total and returns the empty string
exactly for objects without a code property whose message is the empty string
(all other inputs give a non-empty message, with null, undefined and non-object
values giving the unknown-error message); isTableNotFoundError holds for an
object with a code property iff that code is the string 42P01 (its message is
then ignored), and for an object without one iff its string message contains
both "relation" and "does not exist"; and createErrorWithHelp appends the
three-step setup instructions exactly when isTableNotFoundError holds. -/
theorem errorHandler_spec (e : JsVal) :
    (handleDatabaseError e = "" ↔ isEmptyMessageObj e = true) ∧
    ((∀ fields, e ≠ .vobj fields) → handleDatabaseError e = unknownErrorMsg) ∧
    (∀ fields, e = .vobj fields →
      (isTableNotFoundError e = true ↔
        ((∃ c, getField fields "code" = some c ∧ c = .vstr "42P01") ∨
         (getField fields "code" = none ∧
          ∃ m, getField fields "message" = some (.vstr m) ∧
            strIncludes m "relation" = true ∧ strIncludes m "does not exist" = true)))) ∧
    (createErrorWithHelp e = handleDatabaseError e ++ tableNotFoundHelp ↔
      isTableNotFoundError e = true) := by
  have hu_ne : unknownErrorMsg ≠ "" := by decide
  have hf_ne : ¬(false = true) := by decide
  refine ⟨?_, ?_, ?_, ?_⟩
  · cases e with
    | vnull => exact iff_of_false hu_ne hf_ne
    | vundefined => exact iff_of_false hu_ne hf_ne
    | vstr s => exact iff_of_false hu_ne hf_ne
    | vnum n => exact iff_of_false hu_ne hf_ne
    | vbool b => exact iff_of_false hu_ne hf_ne
    | vobj fields =>
      cases hcode : getField fields "code" with
      | some code =>
        refine iff_of_false ?_ ?_
        · cases hmsg : getField fields "message" with
          | some mv =>
            by_cases hstr : ∃ m0 : String, mv = .vstr m0
            · obtain ⟨m0, rfl⟩ := hstr
              exact handleDatabaseError_code_msg_ne_empty fields code m0 hcode hmsg
            · have hnostr : ∀ m0 : String, getField fields "message" ≠ some (.vstr m0) := by
                intro m0 hm0
                rw [hmsg] at hm0
                exact hstr ⟨m0, Option.some.inj hm0⟩
              rw [handleDatabaseError_no_strmsg fields hnostr]
              exact hu_ne
          | none =>
            have hnostr : ∀ m0 : String, getField fields "message" ≠ some (.vstr m0) := by
              intro m0 hm0
              rw [hmsg] at hm0
              exact Option.noConfusion hm0
            rw [handleDatabaseError_no_strmsg fields hnostr]
            exact hu_ne
        · rw [isEmptyMessageObj_code fields code hcode]
          exact hf_ne
      | none =>
        cases hmsg : getField fields "message" with
        | some mv =>
          by_cases hstr : ∃ m0 : String, mv = .vstr m0
          · obtain ⟨m0, rfl⟩ := hstr
            rw [handleDatabaseError_nocode_strmsg fields m0 hcode hmsg,
              isEmptyMessageObj_nocode_strmsg fields m0 hcode hmsg]
            by_cases hm : m0 = ""
            · subst hm
              rw [if_neg (by decide)]
              exact iff_of_true rfl (by decide)
            · refine iff_of_false ?_ (by simp [hm])
              split_ifs with hinc
              · decide
              · exact hm
          · have hnostr : ∀ m0 : String, getField fields "message" ≠ some (.vstr m0) := by
              intro m0 hm0
              rw [hmsg] at hm0
              exact hstr ⟨m0, Option.some.inj hm0⟩
            rw [handleDatabaseError_no_strmsg fields hnostr,
              isEmptyMessageObj_nocode_nostrmsg fields hcode hnostr]
            exact iff_of_false hu_ne hf_ne
        | none =>
          have hnostr : ∀ m0 : String, getField fields "message" ≠ some (.vstr m0) := by
            intro m0 hm0
            rw [hmsg] at hm0
            exact Option.noConfusion hm0
          rw [handleDatabaseError_no_strmsg fields hnostr,
            isEmptyMessageObj_nocode_nostrmsg fields hcode hnostr]
          exact iff_of_false hu_ne hf_ne
  · intro hnotobj
    cases e with
    | vobj fields => exact absurd rfl (hnotobj fields)
    | vnull => rfl
    | vundefined => rfl
    | vstr s => rfl
    | vnum n => rfl
    | vbool b => rfl
  · intro fields hfe
    subst hfe
    cases hcode : getField fields "code" with
    | some code =>
      by_cases hstr : ∃ c0 : String, code = .vstr c0
      · obtain ⟨c0, rfl⟩ := hstr
        rw [isTableNotFoundError_code_vstr fields c0 hcode]
        constructor
        · intro h
          refine Or.inl ⟨.vstr c0, rfl, ?_⟩
          have hc : c0 = "42P01" := by simpa using h
          rw [hc]
        · rintro (⟨c2, hc2, hc42⟩ | ⟨hnone, _⟩)
          · have hcc : JsVal.vstr c0 = c2 := Option.some.inj hc2
            rw [← hcc] at hc42
            have hc : c0 = "42P01" := JsVal.vstr.inj hc42
            simp [hc]
          · exact Option.noConfusion hnone
      · have hnot : ∀ s : String, code ≠ .vstr s := fun s hs => hstr ⟨s, hs⟩
        rw [isTableNotFoundError_code_other fields code hcode hnot]
        refine iff_of_false hf_ne ?_
        rintro (⟨c2, hc2, hc42⟩ | ⟨hnone, _⟩)
        · have hcc : code = c2 := Option.some.inj hc2
          exact hnot "42P01" (by rw [hcc, hc42])
        · exact Option.noConfusion hnone
    | none =>
      cases hmsg : getField fields "message" with
      | some mv =>
        by_cases hstr : ∃ m0 : String, mv = .vstr m0
        · obtain ⟨m0, rfl⟩ := hstr
          rw [isTableNotFoundError_nocode_strmsg fields m0 hcode hmsg, Bool.and_eq_true]
          constructor
          · rintro ⟨h1, h2⟩
            exact Or.inr ⟨rfl, m0, rfl, h1, h2⟩
          · rintro (⟨c2, hc2, _⟩ | ⟨_, m2, hm2, h1, h2⟩)
            · exact Option.noConfusion hc2
            · have hmm : m0 = m2 := JsVal.vstr.inj (Option.some.inj hm2)
              cases hmm
              exact ⟨h1, h2⟩
        · have hnostr : ∀ m0 : String, getField fields "message" ≠ some (.vstr m0) := by
            intro m0 hm0
            rw [hmsg] at hm0
            exact hstr ⟨m0, Option.some.inj hm0⟩
          rw [isTableNotFoundError_nocode_nostrmsg fields hcode hnostr]
          refine iff_of_false hf_ne ?_
          rintro (⟨c2, hc2, _⟩ | ⟨_, m2, hm2, _, _⟩)
          · exact Option.noConfusion hc2
          · exact hstr ⟨m2, Option.some.inj hm2⟩
      | none =>
        have hnostr : ∀ m0 : String, getField fields "message" ≠ some (.vstr m0) := by
          intro m0 hm0
          rw [hmsg] at hm0
          exact Option.noConfusion hm0
        rw [isTableNotFoundError_nocode_nostrmsg fields hcode hnostr]
        refine iff_of_false hf_ne ?_
        rintro (⟨c2, hc2, _⟩ | ⟨_, m2, hm2, _, _⟩)
        · exact Option.noConfusion hc2
        · exact Option.noConfusion hm2
  · have hceh : createErrorWithHelp e =
        if isTableNotFoundError e then handleDatabaseError e ++ tableNotFoundHelp
        else if isRecursionError e then handleDatabaseError e ++ recursionHelp
        else handleDatabaseError e := rfl
    rw [hceh]
    by_cases htnf : isTableNotFoundError e = true
    · rw [if_pos htnf]
      exact iff_of_true rfl htnf
    · rw [if_neg htnf]
      refine iff_of_false ?_ htnf
      intro h
      by_cases hrec : isRecursionError e = true
      · rw [if_pos hrec] at h
        exact absurd (str_append_left_cancel h) (by decide)
      · rw [if_neg hrec] at h
        exact absurd (str_self_eq_append_iff.mp h) (by decide)

end ChatApp
